import Mathlib

/-!
Verification of the uTP connection multiplexer (`src/socket.rs`).

The multiplexer owns a registry `conns` of live connections, two expiring
maps `awaiting` (cid → pending acceptor) and `incoming` (cid → buffered SYN
packet), and an event loop that demultiplexes inbound packets, pairs SYNs
with acceptors, emits RESETs for stray traffic, and expires stale entries.

We shallowly embed the state and each event-loop branch as pure Lean
functions over explicit state, with machine integers as `Nat` reduced
modulo 2^16 where the Rust code uses wrapping `u16` arithmetic.  External
collaborators that are not part of `src/` (the `Packet` wire type, the
`ConnectionId` triple from `cid.rs`, the `delay_map` expiring maps, the
channels) are modelled from the specification's description of their
contracts; channels and one-shot reply slots are identified by `Nat`
handles, and the side effects of one event-loop iteration are reified as a
list of `Effect`s.
-/

namespace Utp

/-- Modelled from the spec: `ConnectionId` (from the external `cid.rs`) is a
triple `(send, recv, peer)` where the two ids are 16-bit unsigned integers
(embedded as `Nat`) and `peer` is any type with decidable equality. -/
structure ConnectionId (P : Type) where
  send : Nat
  recv : Nat
  peer : P
deriving DecidableEq

/-- The five uTP packet types the multiplexer contracts on. -/
inductive PacketType where
  | Syn
  | State
  | Data
  | Fin
  | Reset
deriving DecidableEq

/-- Modelled from the spec: the external `Packet` collaborator.  The
multiplexer contracts on the fields `packet_type`, `conn_id`, `seq_num`,
`ack_num`; the reset path additionally sets a microsecond timestamp and a
window size through `PacketBuilder`. -/
structure Packet where
  packet_type : PacketType
  conn_id : Nat
  ts_micros : Nat
  wnd_size : Nat
  seq_num : Nat
  ack_num : Nat
deriving DecidableEq

/-- Modelled from the spec: `PacketBuilder::new(type, conn_id, ts_micros,
window, seq_num).build()` constructs a packet with exactly those fields
(remaining fields take the builder's zero defaults). -/
def PacketBuilder_build (t : PacketType) (conn_id ts_micros window seq_num : Nat) : Packet :=
  ⟨t, conn_id, ts_micros, window, seq_num, 0⟩

/-- `u16::wrapping_add(x, 1)` on a value embedded as `Nat`. -/
def wadd1 (c : Nat) : Nat := (c + 1) % 65536

/-- `u16::wrapping_sub(x, 1)` on a value embedded as `Nat` (the embedding
keeps every `u16` below `65536`, for which this agrees with wrapping). -/
def wsub1 (c : Nat) : Nat := (c + 65535) % 65536

/-- The three connection-id derivation modes (`enum IdType`). -/
inductive IdType where
  | RecvId
  | SendIdWeInitiated
  | SendIdPeerInitiated
deriving DecidableEq

/-- `cid_from_packet` from `socket.rs`: derive the local `ConnectionId` for
a decoded packet with source address `src` under the given mode. -/
def cid_from_packet {P : Type} (packet : Packet) (src : P) (id_type : IdType) :
    ConnectionId P :=
  match id_type with
  | IdType.RecvId =>
    match packet.packet_type with
    | PacketType.Syn =>
      { send := packet.conn_id, recv := wadd1 packet.conn_id, peer := src }
    | PacketType.State | PacketType.Data | PacketType.Fin | PacketType.Reset =>
      { send := wsub1 packet.conn_id, recv := packet.conn_id, peer := src }
  | IdType.SendIdWeInitiated =>
    { send := wadd1 packet.conn_id, recv := packet.conn_id, peer := src }
  | IdType.SendIdPeerInitiated =>
    { send := packet.conn_id, recv := wsub1 packet.conn_id, peer := src }

/-! ### Association-list maps

`HashMap` and the `delay_map::HashMapDelay` expiring maps are embedded as
association lists with unique-key insertion (`alInsert` overwrites).  The
expiring maps store the insertion time along with the value. -/

/-- `HashMap::contains_key`. -/
def alContains {K V : Type} [DecidableEq K] (l : List (K × V)) (k : K) : Bool :=
  l.any fun kv => decide (kv.1 = k)

/-- `HashMap::get`. -/
def alLookup {K V : Type} [DecidableEq K] (l : List (K × V)) (k : K) : Option V :=
  (l.find? fun kv => decide (kv.1 = k)).map Prod.snd

/-- `HashMap::insert` (overwrites any existing binding of the key). -/
def alInsert {K V : Type} [DecidableEq K] (l : List (K × V)) (k : K) (v : V) :
    List (K × V) :=
  (k, v) :: l.filter fun kv => decide (¬ kv.1 = k)

/-- Key removal (the removal half of `HashMap::remove`). -/
def alRemove {K V : Type} [DecidableEq K] (l : List (K × V)) (k : K) : List (K × V) :=
  l.filter fun kv => decide (¬ kv.1 = k)

/-- `HashMap::remove` / `HashMapDelay::remove`: return the removed value
and the map without the key. -/
def alTake {K V : Type} [DecidableEq K] (l : List (K × V)) (k : K) :
    Option (V × List (K × V)) :=
  match alLookup l k with
  | none => none
  | some v => some (v, alRemove l k)

/-! ### Errors, events and effects -/

/-- The `std::io::ErrorKind`s the multiplexer produces. -/
inductive ErrorKind where
  | NotConnected
  | TimedOut
  | ConnectionAborted
  | Other
deriving DecidableEq

/-- A `std::io::Error`: a kind, plus the custom message for errors built
with `io::Error::new`. -/
structure IoErr where
  kind : ErrorKind
  msg : Option String
deriving DecidableEq

/-- `io::Error::from(kind)`. -/
def IoErr.fromKind (k : ErrorKind) : IoErr := ⟨k, none⟩

/-- `io::Error::new(ErrorKind::Other, "connection ID unavailable")`. -/
def cidUnavailableErr : IoErr := ⟨ErrorKind.Other, some "connection ID unavailable"⟩

/-- `StreamEvent`: what the multiplexer sends into a connection's ingress
channel. -/
inductive StreamEvent where
  | Incoming (packet : Packet)
  | Shutdown
deriving DecidableEq

/-- `SocketEvent`: what connections (and the reset path) send to the event
loop's outbound inbox. -/
inductive SocketEvent (P : Type) where
  | Outgoing (packet : Packet) (dst : P)
  | Shutdown (cid : ConnectionId P)
deriving DecidableEq

/-- The external `ConnectionConfig` is opaque to the multiplexer. -/
abbrev ConnectionConfig := Unit

/-- `struct Accept`: a pending acceptor, holding its one-shot reply slot
(modelled as a `Nat` handle) and a connection config. -/
structure Accept where
  stream : Nat
  config : ConnectionConfig
deriving DecidableEq

instance exceptDecidableEq {ε α : Type} [DecidableEq ε] [DecidableEq α] :
    DecidableEq (Except ε α) := fun x y =>
  match x, y with
  | Except.ok a, Except.ok b =>
    if h : a = b then isTrue (by rw [h])
    else isFalse (by intro hc; cases hc; exact h rfl)
  | Except.ok _, Except.error _ => isFalse (by intro hc; cases hc)
  | Except.error _, Except.ok _ => isFalse (by intro hc; cases hc)
  | Except.error e, Except.error f =>
    if h : e = f then isTrue (by rw [h])
    else isFalse (by intro hc; cases hc; exact h rfl)

/-- Observable side effects of one event-loop iteration:
sending on a connection's ingress channel, enqueueing a `SocketEvent`,
an actual UDP transmit, firing an acceptor's reply slot, and constructing
a `UtpStream` (with its initial packet and fresh ingress channel) whose
`await_connected` task will eventually fire the acceptor's slot. -/
inductive Effect (P : Type) where
  | streamSend (chan : Nat) (ev : StreamEvent)
  | socketSend (ev : SocketEvent P)
  | udpSend (packet : Packet) (dst : P)
  | replyFired (slot : Nat) (outcome : Except IoErr Nat)
  | spawnStream (cid : ConnectionId P) (slot : Nat) (initial : Option Packet) (chan : Nat)
deriving DecidableEq

/-- `MAX_UDP_PAYLOAD_SIZE = u16::MAX`. -/
def MAX_UDP_PAYLOAD_SIZE : Nat := 65535

/-- `CID_GENERATION_TRY_WARNING_COUNT`. -/
def CID_GENERATION_TRY_WARNING_COUNT : Nat := 10

/-- `AWAITING_CONNECTION_TIMEOUT = Duration::from_secs(20)`, expressed in
microseconds (the unit our abstract clock uses throughout). -/
def AWAITING_CONNECTION_TIMEOUT_MICROS : Nat := 20 * 1000000

/-! ### Multiplexer state -/

/-- The state owned by the event loop and the socket façade: the `conns`
registry (cid → ingress-channel handle), the two expiring maps with their
insertion times, a counter modelling allocation of fresh channel handles,
and the current time in microseconds. -/
structure MuxState (P : Type) where
  conns : List (ConnectionId P × Nat)
  awaiting : List (ConnectionId P × (Accept × Nat))
  incoming : List (ConnectionId P × (Packet × Nat))
  nextChan : Nat
  now : Nat
deriving DecidableEq

/-- The empty initial state built by `with_socket`. -/
def initState (P : Type) : MuxState P :=
  { conns := [], awaiting := [], incoming := [], nextChan := 0, now := 0 }

/-- The chained lookup `conns.get(&acc_cid).or_else(we_init_cid)
.or_else(peer_init_cid)` from the inbound-datagram branch. -/
def lookupConn3 {P : Type} [DecidableEq P] (conns : List (ConnectionId P × Nat))
    (acc_cid we_init_cid peer_init_cid : ConnectionId P) : Option Nat :=
  ((alLookup conns acc_cid).orElse fun _ => alLookup conns we_init_cid).orElse
    fun _ => alLookup conns peer_init_cid

/-! ### Event-loop branches -/

/-- The inbound-datagram branch of the event loop (`socket.rs` lines
87–163), for an already-decoded packet: derive the three candidate cids,
route to the first match in `conns`; otherwise handle SYN rendezvous /
buffering, or synthesize a RESET for non-SYN, non-RESET strays.
`random_seq_num` stands for `thread_rng().gen_range(0..=65535)`. -/
def handlePacket {P : Type} [DecidableEq P] (s : MuxState P) (packet : Packet)
    (src : P) (random_seq_num : Nat) : MuxState P × List (Effect P) :=
  let peer_init_cid := cid_from_packet packet src IdType.SendIdPeerInitiated
  let we_init_cid := cid_from_packet packet src IdType.SendIdWeInitiated
  let acc_cid := cid_from_packet packet src IdType.RecvId
  match lookupConn3 s.conns acc_cid we_init_cid peer_init_cid with
  | some conn => (s, [Effect.streamSend conn (StreamEvent.Incoming packet)])
  | none =>
    if packet.packet_type = PacketType.Syn then
      let cid := cid_from_packet packet src IdType.RecvId
      match alTake s.awaiting cid with
      | some (accept, awaiting') =>
        ({ s with awaiting := awaiting',
                  conns := alInsert s.conns cid s.nextChan,
                  nextChan := s.nextChan + 1 },
         [Effect.spawnStream cid accept.1.stream (some packet) s.nextChan])
      | none =>
        ({ s with incoming := alInsert s.incoming cid (packet, s.now) }, [])
    else
      if packet.packet_type = PacketType.Reset then
        (s, [])
      else
        (s, [Effect.socketSend (SocketEvent.Outgoing
              (PacketBuilder_build PacketType.Reset packet.conn_id s.now 100000
                random_seq_num) src)])

/-- `select_accept_helper`: reject the acceptor if the cid is taken,
otherwise insert the fresh ingress channel into `conns` and construct the
stream with the buffered SYN.  Returns the new registry, the new
channel-handle counter, and the effects. -/
def select_accept_helper {P : Type} [DecidableEq P] (cid : ConnectionId P) (syn : Packet)
    (conns : List (ConnectionId P × Nat)) (accept : Accept) (nextChan : Nat) :
    List (ConnectionId P × Nat) × Nat × List (Effect P) :=
  if alContains conns cid then
    (conns, nextChan, [Effect.replyFired accept.stream (Except.error cidUnavailableErr)])
  else
    (alInsert conns cid nextChan, nextChan + 1,
      [Effect.spawnStream cid accept.stream (some syn) nextChan])

/-- The `accepts_with_cid_rx` branch (lines 164–170): consume a buffered
SYN for exactly this cid, or park the acceptor in `awaiting`. -/
def handleAcceptWithCid {P : Type} [DecidableEq P] (s : MuxState P) (accept : Accept)
    (cid : ConnectionId P) : MuxState P × List (Effect P) :=
  match alTake s.incoming cid with
  | none =>
    ({ s with awaiting := alInsert s.awaiting cid (accept, s.now) }, [])
  | some (entry, incoming') =>
    let r := select_accept_helper cid entry.1 s.conns accept s.nextChan
    ({ s with incoming := incoming', conns := r.1, nextChan := r.2.1 }, r.2.2)

/-- The `accepts_rx` branch (lines 171–176); only polled when `incoming`
is non-empty (select guard).  Picks the first buffered SYN and feeds it to
`select_accept_helper`; the second `match` arm mirrors the `.expect`
(unreachable when the guard held, since the head key is present). -/
def handleAccept {P : Type} [DecidableEq P] (s : MuxState P) (accept : Accept) :
    MuxState P × List (Effect P) :=
  match s.incoming with
  | [] => (s, [])
  | (cid, _) :: _ =>
    match alTake s.incoming cid with
    | none => (s, [])
    | some (entry, incoming') =>
      let r := select_accept_helper cid entry.1 s.conns accept s.nextChan
      ({ s with incoming := incoming', conns := r.1, nextChan := r.2.1 }, r.2.2)

/-- The `socket_event_rx` branch (lines 177–197): `Outgoing` encodes and
transmits; `Shutdown` removes the cid from `conns`. -/
def handleSocketEvent {P : Type} [DecidableEq P] (s : MuxState P) (ev : SocketEvent P) :
    MuxState P × List (Effect P) :=
  match ev with
  | SocketEvent.Outgoing packet dst => (s, [Effect.udpSend packet dst])
  | SocketEvent.Shutdown cid => ({ s with conns := alRemove s.conns cid }, [])

/-- The `awaiting.next()` expiry branch (lines 198–205).  Modelled from the
spec: the external `delay_map::HashMapDelay` yields and removes an entry
once it has aged past the timeout; the handler fires the acceptor's reply
slot with a `TimedOut` error. -/
def handleAwaitingExpired {P : Type} [DecidableEq P] (s : MuxState P)
    (cid : ConnectionId P) (accept : Accept) : MuxState P × List (Effect P) :=
  ({ s with awaiting := alRemove s.awaiting cid },
   [Effect.replyFired accept.stream (Except.error (IoErr.fromKind ErrorKind.TimedOut))])

/-- The `incoming_conns.next()` expiry branch (lines 206–210).  Modelled
from the spec as for `handleAwaitingExpired`; the handler only logs. -/
def handleIncomingExpired {P : Type} [DecidableEq P] (s : MuxState P)
    (cid : ConnectionId P) : MuxState P × List (Effect P) :=
  ({ s with incoming := alRemove s.incoming cid }, [])

/-! ### Connection-id generation and the connect paths -/

/-- One iteration of `generate_cid`'s loop body: from the random draw `r`
(`rand::random::<u16>()`, embedded as `r % 65536`), set
`send = recv ± 1` wrapping, depending on `is_initiator`. -/
def candidate_cid {P : Type} (peer : P) (is_initiator : Bool) (r : Nat) :
    ConnectionId P :=
  { send := if is_initiator then wadd1 (r % 65536) else wsub1 (r % 65536),
    recv := r % 65536, peer := peer }

/-- `generate_cid` (lines 219–252): draw random 16-bit `recv` values until
the derived cid is absent from `conns`; with an ingress channel supplied,
insert it into `conns` before returning.  The Rust loop retries without
bound; we model the finite prefix of the random stream it consumes
(`rands`), returning `none` if the prefix is exhausted. -/
def generate_cid {P : Type} [DecidableEq P] (conns : List (ConnectionId P × Nat))
    (peer : P) (is_initiator : Bool) (event_tx : Option Nat) (rands : List Nat) :
    Option (ConnectionId P × List (ConnectionId P × Nat)) :=
  match rands with
  | [] => none
  | r :: rs =>
    if alContains conns (candidate_cid peer is_initiator r) then
      generate_cid conns peer is_initiator event_tx rs
    else
      match event_tx with
      | some tx =>
        some (candidate_cid peer is_initiator r,
          alInsert conns (candidate_cid peer is_initiator r) tx)
      | none => some (candidate_cid peer is_initiator r, conns)

/-- The public `cid(peer, is_initiator)`: `generate_cid` with no ingress
channel (lines 254–256). -/
def cid_public {P : Type} [DecidableEq P] (conns : List (ConnectionId P × Nat))
    (peer : P) (is_initiator : Bool) (rands : List Nat) :
    Option (ConnectionId P × List (ConnectionId P × Nat)) :=
  generate_cid conns peer is_initiator none rands

/-- The registry-facing part of `connect` (lines 301–320): allocate an
initiator cid and atomically insert a fresh ingress channel. -/
def connect {P : Type} [DecidableEq P] (s : MuxState P) (peer : P) (rands : List Nat) :
    Option (ConnectionId P × MuxState P) :=
  match generate_cid s.conns peer true (some s.nextChan) rands with
  | none => none
  | some (cid, conns') =>
    some (cid, { s with conns := conns', nextChan := s.nextChan + 1 })

/-- The registry-facing part of `connect_with_cid` (lines 322–339): fail
with "connection ID unavailable" when the cid is taken, otherwise insert a
fresh ingress channel under it. -/
def connect_with_cid {P : Type} [DecidableEq P] (conns : List (ConnectionId P × Nat))
    (cid : ConnectionId P) (nextChan : Nat) :
    Except IoErr Unit × List (ConnectionId P × Nat) × Nat :=
  if alContains conns cid then
    (Except.error cidUnavailableErr, conns, nextChan)
  else
    (Except.ok (), alInsert conns cid nextChan, nextChan + 1)

/-- `connect_with_cid` lifted to the full state. -/
def connect_with_cid_state {P : Type} [DecidableEq P] (s : MuxState P)
    (cid : ConnectionId P) : Except IoErr Unit × MuxState P :=
  let r := connect_with_cid s.conns cid s.nextChan
  (r.1, { s with conns := r.2.1, nextChan := r.2.2 })

/-- The caller side of `accept` / `accept_with_cid` (lines 265–299):
`send_ok` is whether sending the request into the event loop's unbounded
inbox succeeded (it fails iff the loop exited and closed the channel);
`reply` is `none` when the one-shot reply slot was dropped before firing
and otherwise the fired `io::Result` (a stream handle or an error), which
`Ok(stream?)` returns verbatim. -/
def accept_call (send_ok : Bool) (reply : Option (Except IoErr Nat)) :
    Except IoErr Nat :=
  if send_ok then
    match reply with
    | some outcome => outcome
    | none => Except.error (IoErr.fromKind ErrorKind.TimedOut)
  else
    Except.error (IoErr.fromKind ErrorKind.NotConnected)

/-! ### The step relation -/

/-- One transition of the multiplexer: an event-loop iteration (inbound
datagram, acceptor arrival, socket event, expiry), a caller-side
`connect`/`connect_with_cid` registry mutation, or the clock advancing.
Each constructor defers to the branch function embedding that code path. -/
inductive Step {P : Type} [DecidableEq P] : MuxState P → MuxState P → Prop where
  | inbound (s : MuxState P) (packet : Packet) (src : P) (random_seq_num : Nat) :
      Step s (handlePacket s packet src random_seq_num).1
  | accept_with_cid (s : MuxState P) (accept : Accept) (cid : ConnectionId P) :
      Step s (handleAcceptWithCid s accept cid).1
  | accept (s : MuxState P) (accept : Accept) (hne : s.incoming ≠ []) :
      Step s (handleAccept s accept).1
  | socket_event (s : MuxState P) (ev : SocketEvent P) :
      Step s (handleSocketEvent s ev).1
  | awaiting_expired (s : MuxState P) (cid : ConnectionId P) (accept : Accept) (t : Nat)
      (hmem : (cid, (accept, t)) ∈ s.awaiting)
      (hexp : t + AWAITING_CONNECTION_TIMEOUT_MICROS ≤ s.now) :
      Step s (handleAwaitingExpired s cid accept).1
  | incoming_expired (s : MuxState P) (cid : ConnectionId P) (packet : Packet) (t : Nat)
      (hmem : (cid, (packet, t)) ∈ s.incoming)
      (hexp : t + AWAITING_CONNECTION_TIMEOUT_MICROS ≤ s.now) :
      Step s (handleIncomingExpired s cid).1
  | connect_call (s : MuxState P) (peer : P) (rands : List Nat) (cid : ConnectionId P)
      (s' : MuxState P) (h : connect s peer rands = some (cid, s')) :
      Step s s'
  | connect_with_cid_call (s : MuxState P) (cid : ConnectionId P) :
      Step s (connect_with_cid_state s cid).2
  | tick (s : MuxState P) (d : Nat) :
      Step s { s with now := s.now + d }

/-- States reachable from the empty initial state. -/
def Reachable {P : Type} [DecidableEq P] (s : MuxState P) : Prop :=
  Relation.ReflTransGen Step (initState P) s

/-- The restricted step relation: identical to `Step`, except that
`accept_with_cid` may park an acceptor only for a cid not currently in
`conns`, and `connect`/`connect_with_cid` may only allocate a cid not
currently in `awaiting` or `incoming`.  (The unrestricted code performs
neither check.) -/
inductive StepR {P : Type} [DecidableEq P] : MuxState P → MuxState P → Prop where
  | inbound (s : MuxState P) (packet : Packet) (src : P) (random_seq_num : Nat) :
      StepR s (handlePacket s packet src random_seq_num).1
  | accept_with_cid (s : MuxState P) (accept : Accept) (cid : ConnectionId P)
      (hg : alLookup s.incoming cid = none → alContains s.conns cid = false) :
      StepR s (handleAcceptWithCid s accept cid).1
  | accept (s : MuxState P) (accept : Accept) (hne : s.incoming ≠ []) :
      StepR s (handleAccept s accept).1
  | socket_event (s : MuxState P) (ev : SocketEvent P) :
      StepR s (handleSocketEvent s ev).1
  | awaiting_expired (s : MuxState P) (cid : ConnectionId P) (accept : Accept) (t : Nat)
      (hmem : (cid, (accept, t)) ∈ s.awaiting)
      (hexp : t + AWAITING_CONNECTION_TIMEOUT_MICROS ≤ s.now) :
      StepR s (handleAwaitingExpired s cid accept).1
  | incoming_expired (s : MuxState P) (cid : ConnectionId P) (packet : Packet) (t : Nat)
      (hmem : (cid, (packet, t)) ∈ s.incoming)
      (hexp : t + AWAITING_CONNECTION_TIMEOUT_MICROS ≤ s.now) :
      StepR s (handleIncomingExpired s cid).1
  | connect_call (s : MuxState P) (peer : P) (rands : List Nat) (cid : ConnectionId P)
      (s' : MuxState P) (h : connect s peer rands = some (cid, s'))
      (hg1 : alContains s.awaiting cid = false)
      (hg2 : alContains s.incoming cid = false) :
      StepR s s'
  | connect_with_cid_call (s : MuxState P) (cid : ConnectionId P)
      (hg1 : alContains s.awaiting cid = false)
      (hg2 : alContains s.incoming cid = false) :
      StepR s (connect_with_cid_state s cid).2
  | tick (s : MuxState P) (d : Nat) :
      StepR s { s with now := s.now + d }

/-- States reachable from the empty initial state under the restricted
step relation. -/
def ReachableR {P : Type} [DecidableEq P] (s : MuxState P) : Prop :=
  Relation.ReflTransGen StepR (initState P) s

/-- Pairwise key-disjointness of the three maps. -/
def DisjointMaps {P : Type} [DecidableEq P] (s : MuxState P) : Prop :=
  (∀ k : ConnectionId P, alContains s.conns k = true →
    alContains s.awaiting k = true → False) ∧
  (∀ k : ConnectionId P, alContains s.conns k = true →
    alContains s.incoming k = true → False) ∧
  (∀ k : ConnectionId P, alContains s.awaiting k = true →
    alContains s.incoming k = true → False)

end Utp

namespace Utp

/-! ### Association-list lemmas -/

theorem alContains_eq_true {K V : Type} [DecidableEq K] {l : List (K × V)} {k : K} :
    alContains l k = true ↔ ∃ x ∈ l, x.1 = k := by
  simp [alContains]

theorem alContains_eq_false {K V : Type} [DecidableEq K] {l : List (K × V)} {k : K} :
    alContains l k = false ↔ ∀ x ∈ l, ¬ x.1 = k := by
  rw [← Bool.not_eq_true, alContains_eq_true]
  push_neg
  rfl

theorem alContains_alInsert {K V : Type} [DecidableEq K] {l : List (K × V)}
    {k k' : K} {v : V} :
    alContains (alInsert l k v) k' = true ↔ (k' = k ∨ alContains l k' = true) := by
  simp only [alInsert, alContains_eq_true, List.mem_cons, List.mem_filter,
    decide_eq_true_eq]
  constructor
  · rintro ⟨x, hx | ⟨hxl, hxk⟩, hk'⟩
    · subst hx
      exact Or.inl hk'.symm
    · exact Or.inr ⟨x, hxl, hk'⟩
  · rintro (rfl | ⟨x, hxl, hxk⟩)
    · exact ⟨(k', v), Or.inl rfl, rfl⟩
    · by_cases hk : x.1 = k
      · exact ⟨(k, v), Or.inl rfl, by rw [← hxk, hk]⟩
      · exact ⟨x, Or.inr ⟨hxl, hk⟩, hxk⟩

theorem alContains_alRemove {K V : Type} [DecidableEq K] {l : List (K × V)}
    {k k' : K} :
    alContains (alRemove l k) k' = true ↔ (¬ k' = k ∧ alContains l k' = true) := by
  simp only [alRemove, alContains_eq_true, List.mem_filter, decide_eq_true_eq]
  constructor
  · rintro ⟨x, ⟨hxl, hxk⟩, hk'⟩
    exact ⟨hk'.symm ▸ hxk, x, hxl, hk'⟩
  · rintro ⟨hkk, x, hxl, hk'⟩
    exact ⟨x, ⟨hxl, hk'.symm ▸ hkk⟩, hk'⟩

theorem alLookup_eq_none {K V : Type} [DecidableEq K] {l : List (K × V)} {k : K} :
    alLookup l k = none ↔ alContains l k = false := by
  simp [alLookup, alContains_eq_false, List.find?_eq_none]

theorem alLookup_isSome_of_contains {K V : Type} [DecidableEq K] {l : List (K × V)}
    {k : K} (h : alContains l k = true) : (alLookup l k).isSome = true := by
  cases hl : alLookup l k with
  | none => rw [alLookup_eq_none.mp hl] at h; cases h
  | some v => rfl

theorem alTake_eq_none {K V : Type} [DecidableEq K] {l : List (K × V)} {k : K} :
    alTake l k = none ↔ alContains l k = false := by
  unfold alTake
  cases hl : alLookup l k with
  | none => simpa using alLookup_eq_none.mp hl
  | some v =>
    simp only [reduceCtorEq, false_iff]
    intro hc
    have := alLookup_eq_none.mpr hc
    rw [hl] at this
    cases this

theorem alTake_eq_some {K V : Type} [DecidableEq K] {l : List (K × V)} {k : K}
    {p : V × List (K × V)} (h : alTake l k = some p) :
    alContains l k = true ∧ p.2 = alRemove l k := by
  unfold alTake at h
  cases hl : alLookup l k with
  | none => rw [hl] at h; cases h
  | some v =>
    rw [hl] at h
    cases h
    refine ⟨?_, rfl⟩
    by_contra hc
    have hc' : alContains l k = false := by
      cases hcc : alContains l k with
      | false => rfl
      | true => exact absurd hcc hc
    rw [alLookup_eq_none.mpr hc'] at hl
    cases hl

theorem alLookup_cons_self {K V : Type} [DecidableEq K] {k : K} {v : V}
    {rest : List (K × V)} : alLookup ((k, v) :: rest) k = some v := by
  simp [alLookup, List.find?_cons_of_pos]

/-! ### Branch lemmas for the event-loop handlers -/

theorem lookupConn3_eq_none {P : Type} [DecidableEq P]
    {conns : List (ConnectionId P × Nat)} {a w p : ConnectionId P} :
    lookupConn3 conns a w p = none ↔
      alLookup conns a = none ∧ alLookup conns w = none ∧ alLookup conns p = none := by
  unfold lookupConn3
  cases alLookup conns a <;> cases alLookup conns w <;> cases alLookup conns p <;>
    simp [Option.orElse]

theorem lookupConn3_first {P : Type} [DecidableEq P]
    {conns : List (ConnectionId P × Nat)} {a w p : ConnectionId P} {ch : Nat}
    (h : alLookup conns a = some ch) : lookupConn3 conns a w p = some ch := by
  unfold lookupConn3
  rw [h]
  rfl

theorem lookupConn3_second {P : Type} [DecidableEq P]
    {conns : List (ConnectionId P × Nat)} {a w p : ConnectionId P} {ch : Nat}
    (ha : alLookup conns a = none) (h : alLookup conns w = some ch) :
    lookupConn3 conns a w p = some ch := by
  unfold lookupConn3
  rw [ha, h]
  rfl

theorem lookupConn3_third {P : Type} [DecidableEq P]
    {conns : List (ConnectionId P × Nat)} {a w p : ConnectionId P} {ch : Nat}
    (ha : alLookup conns a = none) (hw : alLookup conns w = none)
    (h : alLookup conns p = some ch) : lookupConn3 conns a w p = some ch := by
  unfold lookupConn3
  rw [ha, hw, h]
  rfl

theorem handlePacket_matched {P : Type} [DecidableEq P] (s : MuxState P)
    (packet : Packet) (src : P) (random_seq_num : Nat) (ch : Nat)
    (h : lookupConn3 s.conns (cid_from_packet packet src IdType.RecvId)
        (cid_from_packet packet src IdType.SendIdWeInitiated)
        (cid_from_packet packet src IdType.SendIdPeerInitiated) = some ch) :
    handlePacket s packet src random_seq_num
      = (s, [Effect.streamSend ch (StreamEvent.Incoming packet)]) := by
  simp only [handlePacket, h]

theorem handlePacket_syn_hit {P : Type} [DecidableEq P] (s : MuxState P)
    (packet : Packet) (src : P) (random_seq_num : Nat)
    (entry : Accept × Nat) (awaiting' : List (ConnectionId P × (Accept × Nat)))
    (hl : lookupConn3 s.conns (cid_from_packet packet src IdType.RecvId)
        (cid_from_packet packet src IdType.SendIdWeInitiated)
        (cid_from_packet packet src IdType.SendIdPeerInitiated) = none)
    (hsyn : packet.packet_type = PacketType.Syn)
    (ht : alTake s.awaiting (cid_from_packet packet src IdType.RecvId)
        = some (entry, awaiting')) :
    handlePacket s packet src random_seq_num =
      ({ s with awaiting := awaiting',
                conns := alInsert s.conns (cid_from_packet packet src IdType.RecvId)
                  s.nextChan,
                nextChan := s.nextChan + 1 },
       [Effect.spawnStream (cid_from_packet packet src IdType.RecvId) entry.1.stream
          (some packet) s.nextChan]) := by
  simp only [handlePacket, hl, hsyn, if_pos, ht]

theorem handlePacket_syn_miss {P : Type} [DecidableEq P] (s : MuxState P)
    (packet : Packet) (src : P) (random_seq_num : Nat)
    (hl : lookupConn3 s.conns (cid_from_packet packet src IdType.RecvId)
        (cid_from_packet packet src IdType.SendIdWeInitiated)
        (cid_from_packet packet src IdType.SendIdPeerInitiated) = none)
    (hsyn : packet.packet_type = PacketType.Syn)
    (ht : alTake s.awaiting (cid_from_packet packet src IdType.RecvId) = none) :
    handlePacket s packet src random_seq_num =
      ({ s with incoming :=
          (alInsert s.incoming (cid_from_packet packet src IdType.RecvId)
            (packet, s.now)) }, []) := by
  simp only [handlePacket, hl, hsyn, if_pos, ht]

theorem handlePacket_reset_drop {P : Type} [DecidableEq P] (s : MuxState P)
    (packet : Packet) (src : P) (random_seq_num : Nat)
    (hl : lookupConn3 s.conns (cid_from_packet packet src IdType.RecvId)
        (cid_from_packet packet src IdType.SendIdWeInitiated)
        (cid_from_packet packet src IdType.SendIdPeerInitiated) = none)
    (hsyn : ¬ packet.packet_type = PacketType.Syn)
    (hrst : packet.packet_type = PacketType.Reset) :
    handlePacket s packet src random_seq_num = (s, []) := by
  simp [handlePacket, hl, hsyn, hrst]

theorem handlePacket_stray {P : Type} [DecidableEq P] (s : MuxState P)
    (packet : Packet) (src : P) (random_seq_num : Nat)
    (hl : lookupConn3 s.conns (cid_from_packet packet src IdType.RecvId)
        (cid_from_packet packet src IdType.SendIdWeInitiated)
        (cid_from_packet packet src IdType.SendIdPeerInitiated) = none)
    (hsyn : ¬ packet.packet_type = PacketType.Syn)
    (hrst : ¬ packet.packet_type = PacketType.Reset) :
    handlePacket s packet src random_seq_num =
      (s, [Effect.socketSend (SocketEvent.Outgoing
            (PacketBuilder_build PacketType.Reset packet.conn_id s.now 100000
              random_seq_num) src)]) := by
  simp [handlePacket, hl, hsyn, hrst]

theorem select_accept_helper_unavail {P : Type} [DecidableEq P]
    (cid : ConnectionId P) (syn : Packet) (conns : List (ConnectionId P × Nat))
    (accept : Accept) (nextChan : Nat) (h : alContains conns cid = true) :
    select_accept_helper cid syn conns accept nextChan =
      (conns, nextChan,
       [Effect.replyFired accept.stream (Except.error cidUnavailableErr)]) := by
  simp only [select_accept_helper, h, if_pos, if_true]

theorem select_accept_helper_ok {P : Type} [DecidableEq P]
    (cid : ConnectionId P) (syn : Packet) (conns : List (ConnectionId P × Nat))
    (accept : Accept) (nextChan : Nat) (h : alContains conns cid = false) :
    select_accept_helper cid syn conns accept nextChan =
      (alInsert conns cid nextChan, nextChan + 1,
       [Effect.spawnStream cid accept.stream (some syn) nextChan]) := by
  simp only [select_accept_helper, h, if_false, Bool.false_eq_true]

theorem handleAcceptWithCid_park {P : Type} [DecidableEq P] (s : MuxState P)
    (accept : Accept) (cid : ConnectionId P)
    (ht : alTake s.incoming cid = none) :
    handleAcceptWithCid s accept cid =
      ({ s with awaiting := alInsert s.awaiting cid (accept, s.now) }, []) := by
  simp only [handleAcceptWithCid, ht]

theorem handleAcceptWithCid_hit {P : Type} [DecidableEq P] (s : MuxState P)
    (accept : Accept) (cid : ConnectionId P) (entry : Packet × Nat)
    (incoming' : List (ConnectionId P × (Packet × Nat)))
    (ht : alTake s.incoming cid = some (entry, incoming')) :
    handleAcceptWithCid s accept cid =
      ({ s with incoming := incoming',
                conns := (select_accept_helper cid entry.1 s.conns accept s.nextChan).1,
                nextChan :=
                  (select_accept_helper cid entry.1 s.conns accept s.nextChan).2.1 },
       (select_accept_helper cid entry.1 s.conns accept s.nextChan).2.2) := by
  simp only [handleAcceptWithCid, ht]

theorem handleAccept_cons {P : Type} [DecidableEq P] (s : MuxState P)
    (accept : Accept) (cid : ConnectionId P) (pr : Packet × Nat)
    (rest : List (ConnectionId P × (Packet × Nat)))
    (h : s.incoming = (cid, pr) :: rest) :
    handleAccept s accept = handleAcceptWithCid s accept cid := by
  have hl : alLookup s.incoming cid = some pr := by
    rw [h]; exact alLookup_cons_self
  have ht : alTake s.incoming cid = some (pr, alRemove s.incoming cid) := by
    unfold alTake
    rw [hl]
  unfold handleAccept handleAcceptWithCid
  rw [h]
  simp only [← h, ht]

/-! ### Lemmas about cid generation and the connect paths -/

theorem generate_cid_some {P : Type} [DecidableEq P]
    {conns : List (ConnectionId P × Nat)} {peer : P} {is_initiator : Bool}
    {event_tx : Option Nat} {rands : List Nat} {cid : ConnectionId P}
    {conns' : List (ConnectionId P × Nat)}
    (h : generate_cid conns peer is_initiator event_tx rands = some (cid, conns')) :
    alContains conns cid = false ∧
    cid.recv < 65536 ∧
    cid.send = (if is_initiator then wadd1 cid.recv else wsub1 cid.recv) ∧
    cid.peer = peer ∧
    (event_tx = none → conns' = conns) ∧
    (∀ tx, event_tx = some tx → conns' = alInsert conns cid tx) := by
  induction rands with
  | nil => cases h
  | cons r rs ih =>
    simp only [generate_cid] at h
    by_cases hc : alContains conns (candidate_cid peer is_initiator r) = true
    · rw [if_pos hc] at h
      exact ih h
    · rw [if_neg hc] at h
      have hcf : alContains conns (candidate_cid peer is_initiator r) = false := by
        cases hcx : alContains conns (candidate_cid peer is_initiator r) with
        | false => rfl
        | true => exact absurd hcx hc
      cases event_tx with
      | some tx =>
        simp only [Option.some.injEq, Prod.mk.injEq] at h
        obtain ⟨hcid, hconns⟩ := h
        subst hcid
        subst hconns
        refine ⟨hcf, Nat.mod_lt _ (by norm_num), rfl, rfl, ?_, ?_⟩
        · intro hcontra; cases hcontra
        · intro tx' htx
          cases htx
          rfl
      | none =>
        simp only [Option.some.injEq, Prod.mk.injEq] at h
        obtain ⟨hcid, hconns⟩ := h
        subst hcid
        subst hconns
        refine ⟨hcf, Nat.mod_lt _ (by norm_num), rfl, rfl, fun _ => rfl, ?_⟩
        intro tx' htx
        cases htx

theorem connect_some {P : Type} [DecidableEq P] {s : MuxState P} {peer : P}
    {rands : List Nat} {cid : ConnectionId P} {s' : MuxState P}
    (h : connect s peer rands = some (cid, s')) :
    alContains s.conns cid = false ∧
    s' = { s with conns := alInsert s.conns cid s.nextChan,
                  nextChan := s.nextChan + 1 } := by
  unfold connect at h
  cases hg : generate_cid s.conns peer true (some s.nextChan) rands with
  | none => rw [hg] at h; cases h
  | some pr =>
    rw [hg] at h
    obtain ⟨c0, conns0⟩ := pr
    cases h
    obtain ⟨hfree, _, _, _, _, hsome⟩ := generate_cid_some hg
    exact ⟨hfree, by rw [hsome s.nextChan rfl]⟩

theorem connect_with_cid_taken {P : Type} [DecidableEq P]
    {conns : List (ConnectionId P × Nat)} {cid : ConnectionId P} {nextChan : Nat}
    (h : alContains conns cid = true) :
    connect_with_cid conns cid nextChan =
      (Except.error cidUnavailableErr, conns, nextChan) := by
  simp only [connect_with_cid, h, if_true, if_pos]

theorem connect_with_cid_free {P : Type} [DecidableEq P]
    {conns : List (ConnectionId P × Nat)} {cid : ConnectionId P} {nextChan : Nat}
    (h : alContains conns cid = false) :
    connect_with_cid conns cid nextChan =
      (Except.ok (), alInsert conns cid nextChan, nextChan + 1) := by
  simp [connect_with_cid, h]

/-! ### The disjointness invariant under the restricted step relation -/

theorem disjointMaps_initState (P : Type) [DecidableEq P] :
    DisjointMaps (initState P) := by
  refine ⟨?_, ?_, ?_⟩ <;> intro k hk hk2 <;> simp [initState, alContains] at hk

theorem handleAcceptWithCid_preserves {P : Type} [DecidableEq P] {s : MuxState P}
    {accept : Accept} {cid : ConnectionId P}
    (hg : alLookup s.incoming cid = none → alContains s.conns cid = false)
    (hinv : DisjointMaps s) :
    DisjointMaps (handleAcceptWithCid s accept cid).1 := by
  obtain ⟨h1, h2, h3⟩ := hinv
  cases ht : alTake s.incoming cid with
  | none =>
    rw [handleAcceptWithCid_park s accept cid ht]
    have hio : alContains s.incoming cid = false := alTake_eq_none.mp ht
    have hconn : alContains s.conns cid = false := hg (alLookup_eq_none.mpr hio)
    refine ⟨?_, h2, ?_⟩
    · intro k hk hk2
      rcases alContains_alInsert.mp hk2 with rfl | hk2'
      · simp [hconn] at hk
      · exact h1 k hk hk2'
    · intro k hk hk2
      rcases alContains_alInsert.mp hk with rfl | hk'
      · simp [hio] at hk2
      · exact h3 k hk' hk2
  | some pr =>
    obtain ⟨entry, incoming'⟩ := pr
    rw [handleAcceptWithCid_hit s accept cid entry incoming' ht]
    obtain ⟨hci, hrm⟩ := alTake_eq_some ht
    simp only [] at hrm
    subst hrm
    by_cases hcc : alContains s.conns cid = true
    · rw [select_accept_helper_unavail cid entry.1 s.conns accept s.nextChan hcc]
      refine ⟨h1, ?_, ?_⟩
      · intro k hk hk2
        exact h2 k hk (alContains_alRemove.mp hk2).2
      · intro k hk hk2
        exact h3 k hk (alContains_alRemove.mp hk2).2
    · have hccf : alContains s.conns cid = false := by
        cases hcx : alContains s.conns cid with
        | false => rfl
        | true => exact absurd hcx hcc
      rw [select_accept_helper_ok cid entry.1 s.conns accept s.nextChan hccf]
      refine ⟨?_, ?_, ?_⟩
      · intro k hk hk2
        rcases alContains_alInsert.mp hk with rfl | hk'
        · exact h3 k hk2 hci
        · exact h1 k hk' hk2
      · intro k hk hk2
        rcases alContains_alInsert.mp hk with rfl | hk'
        · exact (alContains_alRemove.mp hk2).1 rfl
        · exact h2 k hk' (alContains_alRemove.mp hk2).2
      · intro k hk hk2
        exact h3 k hk (alContains_alRemove.mp hk2).2

theorem stepR_preserves_disjoint {P : Type} [DecidableEq P] {s s' : MuxState P}
    (hstep : StepR s s') (hinv : DisjointMaps s) : DisjointMaps s' := by
  obtain ⟨h1, h2, h3⟩ := hinv
  cases hstep with
  | inbound packet src random_seq_num =>
    cases hl : lookupConn3 s.conns (cid_from_packet packet src IdType.RecvId)
        (cid_from_packet packet src IdType.SendIdWeInitiated)
        (cid_from_packet packet src IdType.SendIdPeerInitiated) with
    | some ch =>
      rw [handlePacket_matched s packet src random_seq_num ch hl]
      exact ⟨h1, h2, h3⟩
    | none =>
      obtain ⟨hla, hlw, hlp⟩ := lookupConn3_eq_none.mp hl
      have hca : alContains s.conns (cid_from_packet packet src IdType.RecvId) = false :=
        alLookup_eq_none.mp hla
      by_cases hsyn : packet.packet_type = PacketType.Syn
      · cases ht : alTake s.awaiting (cid_from_packet packet src IdType.RecvId) with
        | some pr =>
          obtain ⟨entry, awaiting'⟩ := pr
          rw [handlePacket_syn_hit s packet src random_seq_num entry awaiting' hl hsyn ht]
          obtain ⟨hcw, hrm⟩ := alTake_eq_some ht
          simp only [] at hrm
          subst hrm
          refine ⟨?_, ?_, ?_⟩
          · intro k hk hk2
            rcases alContains_alInsert.mp hk with rfl | hk'
            · exact (alContains_alRemove.mp hk2).1 rfl
            · exact h1 k hk' (alContains_alRemove.mp hk2).2
          · intro k hk hk2
            rcases alContains_alInsert.mp hk with rfl | hk'
            · exact h3 _ hcw hk2
            · exact h2 k hk' hk2
          · intro k hk hk2
            exact h3 k (alContains_alRemove.mp hk).2 hk2
        | none =>
          rw [handlePacket_syn_miss s packet src random_seq_num hl hsyn ht]
          have hta : alContains s.awaiting (cid_from_packet packet src IdType.RecvId)
              = false := alTake_eq_none.mp ht
          refine ⟨h1, ?_, ?_⟩
          · intro k hk hk2
            rcases alContains_alInsert.mp hk2 with rfl | hk2'
            · simp [hca] at hk
            · exact h2 k hk hk2'
          · intro k hk hk2
            rcases alContains_alInsert.mp hk2 with rfl | hk2'
            · simp [hta] at hk
            · exact h3 k hk hk2'
      · by_cases hrst : packet.packet_type = PacketType.Reset
        · rw [handlePacket_reset_drop s packet src random_seq_num hl hsyn hrst]
          exact ⟨h1, h2, h3⟩
        · rw [handlePacket_stray s packet src random_seq_num hl hsyn hrst]
          exact ⟨h1, h2, h3⟩
  | accept_with_cid accept cid hg =>
    exact handleAcceptWithCid_preserves hg ⟨h1, h2, h3⟩
  | accept accept hne =>
    cases hin : s.incoming with
    | nil => exact absurd hin hne
    | cons hd rest =>
      obtain ⟨cid, pr⟩ := hd
      rw [handleAccept_cons s accept cid pr rest hin]
      have hl : alLookup s.incoming cid = some pr := by
        rw [hin]; exact alLookup_cons_self
      refine handleAcceptWithCid_preserves ?_ ⟨h1, h2, h3⟩
      intro hnone
      rw [hl] at hnone
      cases hnone
  | socket_event ev =>
    cases ev with
    | Outgoing packet dst => exact ⟨h1, h2, h3⟩
    | Shutdown cid =>
      simp only [handleSocketEvent]
      refine ⟨?_, ?_, h3⟩
      · intro k hk hk2
        exact h1 k (alContains_alRemove.mp hk).2 hk2
      · intro k hk hk2
        exact h2 k (alContains_alRemove.mp hk).2 hk2
  | awaiting_expired cid accept t hmem hexp =>
    simp only [handleAwaitingExpired]
    refine ⟨?_, h2, ?_⟩
    · intro k hk hk2
      exact h1 k hk (alContains_alRemove.mp hk2).2
    · intro k hk hk2
      exact h3 k (alContains_alRemove.mp hk).2 hk2
  | incoming_expired cid packet t hmem hexp =>
    simp only [handleIncomingExpired]
    refine ⟨h1, ?_, ?_⟩
    · intro k hk hk2
      exact h2 k hk (alContains_alRemove.mp hk2).2
    · intro k hk hk2
      exact h3 k hk (alContains_alRemove.mp hk2).2
  | connect_call peer rands cid s' h hg1 hg2 =>
    obtain ⟨hcf, rfl⟩ := connect_some h
    refine ⟨?_, ?_, h3⟩
    · intro k hk hk2
      rcases alContains_alInsert.mp hk with rfl | hk'
      · simp [hg1] at hk2
      · exact h1 k hk' hk2
    · intro k hk hk2
      rcases alContains_alInsert.mp hk with rfl | hk'
      · simp [hg2] at hk2
      · exact h2 k hk' hk2
  | connect_with_cid_call cid hg1 hg2 =>
    by_cases hcc : alContains s.conns cid = true
    · simp only [connect_with_cid_state, connect_with_cid_taken hcc]
      exact ⟨h1, h2, h3⟩
    · have hccf : alContains s.conns cid = false := by
        cases hcx : alContains s.conns cid with
        | false => rfl
        | true => exact absurd hcx hcc
      simp only [connect_with_cid_state, connect_with_cid_free hccf]
      refine ⟨?_, ?_, h3⟩
      · intro k hk hk2
        rcases alContains_alInsert.mp hk with rfl | hk'
        · simp [hg1] at hk2
        · exact h1 k hk' hk2
      · intro k hk hk2
        rcases alContains_alInsert.mp hk with rfl | hk'
        · simp [hg2] at hk2
        · exact h2 k hk' hk2
  | tick d =>
    exact ⟨h1, h2, h3⟩

theorem reachableR_disjoint {P : Type} [DecidableEq P] {s : MuxState P}
    (h : ReachableR s) : DisjointMaps s := by
  unfold ReachableR at h
  induction h with
  | refl => exact disjointMaps_initState P
  | tail _ hstep ih => exact stepR_preserves_disjoint hstep ih

theorem alContains_alRemove_self {K V : Type} [DecidableEq K]
    {l : List (K × V)} {k : K} : alContains (alRemove l k) k = false := by
  cases hx : alContains (alRemove l k) k with
  | false => rfl
  | true => exact absurd rfl (alContains_alRemove.mp hx).1

/-! ### The claims -/

/-- **C1.** For every decoded packet with 16-bit `conn_id` `C` arriving from
source `S`, the connection-id derivation returns exactly: mode `RecvId` on a
SYN packet → `(send=C, recv=C+1)`; mode `RecvId` on a non-SYN packet →
`(send=C-1, recv=C)`; mode `SendIdWeInitiated` → `(send=C+1, recv=C)`; mode
`SendIdPeerInitiated` → `(send=C, recv=C-1)`; in every case `peer=S` and all
id arithmetic wraps modulo `2^16`. -/
theorem C1_cid_from_packet {P : Type} (packet : Packet) (src : P) :
    (packet.packet_type = PacketType.Syn →
      cid_from_packet packet src IdType.RecvId =
        { send := packet.conn_id, recv := (packet.conn_id + 1) % 2 ^ 16, peer := src }) ∧
    (packet.packet_type ≠ PacketType.Syn →
      cid_from_packet packet src IdType.RecvId =
        { send := (packet.conn_id + 2 ^ 16 - 1) % 2 ^ 16, recv := packet.conn_id,
          peer := src }) ∧
    (cid_from_packet packet src IdType.SendIdWeInitiated =
      { send := (packet.conn_id + 1) % 2 ^ 16, recv := packet.conn_id, peer := src }) ∧
    (cid_from_packet packet src IdType.SendIdPeerInitiated =
      { send := packet.conn_id, recv := (packet.conn_id + 2 ^ 16 - 1) % 2 ^ 16,
        peer := src }) := by
  refine ⟨fun h => ?_, fun h => ?_, ?_, ?_⟩ <;>
    cases hpt : packet.packet_type <;>
      simp_all [cid_from_packet, wadd1, wsub1]

/-- Witness for C1 at a concrete SYN packet and a concrete non-SYN packet
(`conn_id = 65535` exercising the wrap, `conn_id = 0` the underflow). -/
theorem C1_cid_from_packet_witness :
    cid_from_packet ⟨PacketType.Syn, 65535, 0, 0, 7, 8⟩ (0 : Nat) IdType.RecvId =
      { send := 65535, recv := 0, peer := (0 : Nat) } ∧
    cid_from_packet ⟨PacketType.Data, 0, 0, 0, 7, 8⟩ (0 : Nat) IdType.RecvId =
      { send := 65535, recv := 0, peer := (0 : Nat) } := by
  constructor
  · have h := (C1_cid_from_packet ⟨PacketType.Syn, 65535, 0, 0, 7, 8⟩ (0 : Nat)).1 rfl
    simpa using h
  · have h := (C1_cid_from_packet ⟨PacketType.Data, 0, 0, 0, 7, 8⟩ (0 : Nat)).2.1
      (by decide)
    simpa using h

/-- **C2.** For every inbound decoded packet, the event loop computes the
three candidate cids `acc_cid` (`RecvId`), `we_init_cid`
(`SendIdWeInitiated`) and `peer_init_cid` (`SendIdPeerInitiated`), looks
them up in `conns` in exactly that order, and delivers the packet as
`StreamEvent::Incoming` to the channel of the first cid found; when a match
exists no other handling (SYN buffering, reset, state change) occurs. -/
theorem C2_demux_order {P : Type} [DecidableEq P] (s : MuxState P) (packet : Packet)
    (src : P) (random_seq_num : Nat) :
    (∀ ch, alLookup s.conns (cid_from_packet packet src IdType.RecvId) = some ch →
      handlePacket s packet src random_seq_num =
        (s, [Effect.streamSend ch (StreamEvent.Incoming packet)])) ∧
    (alLookup s.conns (cid_from_packet packet src IdType.RecvId) = none →
      ∀ ch, alLookup s.conns (cid_from_packet packet src IdType.SendIdWeInitiated)
          = some ch →
      handlePacket s packet src random_seq_num =
        (s, [Effect.streamSend ch (StreamEvent.Incoming packet)])) ∧
    (alLookup s.conns (cid_from_packet packet src IdType.RecvId) = none →
      alLookup s.conns (cid_from_packet packet src IdType.SendIdWeInitiated) = none →
      ∀ ch, alLookup s.conns (cid_from_packet packet src IdType.SendIdPeerInitiated)
          = some ch →
      handlePacket s packet src random_seq_num =
        (s, [Effect.streamSend ch (StreamEvent.Incoming packet)])) := by
  refine ⟨?_, ?_, ?_⟩
  · intro ch h
    exact handlePacket_matched s packet src random_seq_num ch (lookupConn3_first h)
  · intro ha ch h
    exact handlePacket_matched s packet src random_seq_num ch (lookupConn3_second ha h)
  · intro ha hw ch h
    exact handlePacket_matched s packet src random_seq_num ch
      (lookupConn3_third ha hw h)

/-- Witness for C2: a Data packet with `conn_id = 5` from peer `0`, against
a registry holding only the we-initiated cid `(send=6, recv=5)` on channel
`7`; the acc-cid probe misses and the we-init probe routes. -/
theorem C2_demux_order_witness :
    handlePacket
      (⟨[({ send := 6, recv := 5, peer := 0 }, 7)], [], [], 0, 0⟩ : MuxState Nat)
      ⟨PacketType.Data, 5, 0, 0, 0, 0⟩ 0 0 =
      ((⟨[({ send := 6, recv := 5, peer := 0 }, 7)], [], [], 0, 0⟩ : MuxState Nat),
       [Effect.streamSend 7 (StreamEvent.Incoming ⟨PacketType.Data, 5, 0, 0, 0, 0⟩)]) :=
  (C2_demux_order
    (⟨[({ send := 6, recv := 5, peer := 0 }, 7)], [], [], 0, 0⟩ : MuxState Nat)
    ⟨PacketType.Data, 5, 0, 0, 0, 0⟩ 0 0).2.1 (by decide) 7 (by decide)

/-- **C4.** For every inbound decoded packet that matches none of the three
candidate cids in `conns`: a RESET is enqueued on the outbound channel iff
the packet's type is neither SYN nor RESET, and that RESET is exactly one
packet addressed to the source with type `Reset`, connection id equal to
the incoming packet's own `conn_id`, timestamp now in microseconds, window
`100000`, and the random 16-bit sequence number drawn for it; an unmatched
RESET produces no outbound packet. -/
theorem C4_reset_on_stray {P : Type} [DecidableEq P] (s : MuxState P) (packet : Packet)
    (src : P) (random_seq_num : Nat)
    (hl : lookupConn3 s.conns (cid_from_packet packet src IdType.RecvId)
        (cid_from_packet packet src IdType.SendIdWeInitiated)
        (cid_from_packet packet src IdType.SendIdPeerInitiated) = none) :
    (packet.packet_type ≠ PacketType.Syn → packet.packet_type ≠ PacketType.Reset →
      handlePacket s packet src random_seq_num =
        (s, [Effect.socketSend (SocketEvent.Outgoing
          { packet_type := PacketType.Reset, conn_id := packet.conn_id,
            ts_micros := s.now, wnd_size := 100000, seq_num := random_seq_num,
            ack_num := 0 } src)])) ∧
    (packet.packet_type = PacketType.Reset →
      handlePacket s packet src random_seq_num = (s, [])) ∧
    (packet.packet_type = PacketType.Syn →
      ∀ e ∈ (handlePacket s packet src random_seq_num).2,
        ∀ (q : Packet) (d : P), e ≠ Effect.socketSend (SocketEvent.Outgoing q d)) := by
  refine ⟨?_, ?_, ?_⟩
  · intro hs hr
    exact handlePacket_stray s packet src random_seq_num hl hs hr
  · intro hr
    exact handlePacket_reset_drop s packet src random_seq_num hl (by simp [hr]) hr
  · intro hs e he q d
    cases ht : alTake s.awaiting (cid_from_packet packet src IdType.RecvId) with
    | some pr =>
      rw [handlePacket_syn_hit s packet src random_seq_num pr.1 pr.2 hl hs ht] at he
      simp only [List.mem_singleton] at he
      subst he
      intro hcontra
      cases hcontra
    | none =>
      rw [handlePacket_syn_miss s packet src random_seq_num hl hs ht] at he
      simp at he

/-- Witness for C4: a Data packet with `conn_id = 9` from peer `2` against
an empty registry elicits exactly one RESET with `conn_id = 9`; a RESET
packet in the same situation elicits nothing. -/
theorem C4_reset_on_stray_witness :
    handlePacket (initState Nat) ⟨PacketType.Data, 9, 0, 0, 3, 4⟩ 2 55 =
      ((initState Nat),
       [Effect.socketSend (SocketEvent.Outgoing
          { packet_type := PacketType.Reset, conn_id := 9, ts_micros := 0,
            wnd_size := 100000, seq_num := 55, ack_num := 0 } 2)]) ∧
    handlePacket (initState Nat) ⟨PacketType.Reset, 9, 0, 0, 3, 4⟩ 2 55 =
      ((initState Nat), []) :=
  ⟨(C4_reset_on_stray (initState Nat) ⟨PacketType.Data, 9, 0, 0, 3, 4⟩ 2 55
      (by decide)).1 (by decide) (by decide),
   (C4_reset_on_stray (initState Nat) ⟨PacketType.Reset, 9, 0, 0, 3, 4⟩ 2 55
      (by decide)).2.1 rfl⟩

/-- **C5.** For every cid `K` already present in `conns`,
`connect_with_cid(K, config)` returns an error of kind `Other` with message
"connection ID unavailable", and the `conns` registry is left unchanged by
the call. -/
theorem C5_connect_with_cid_unavailable {P : Type} [DecidableEq P]
    (conns : List (ConnectionId P × Nat)) (cid : ConnectionId P) (nextChan : Nat)
    (h : alContains conns cid = true) :
    (connect_with_cid conns cid nextChan).1 = Except.error cidUnavailableErr ∧
    cidUnavailableErr.kind = ErrorKind.Other ∧
    cidUnavailableErr.msg = some "connection ID unavailable" ∧
    (connect_with_cid conns cid nextChan).2.1 = conns := by
  rw [connect_with_cid_taken h]
  exact ⟨rfl, rfl, rfl, rfl⟩

/-- Witness for C5 at a registry holding cid `(send=4, recv=3, peer=1)`. -/
theorem C5_connect_with_cid_unavailable_witness :
    (connect_with_cid [({ send := 4, recv := 3, peer := 1 }, 0)]
        ({ send := 4, recv := 3, peer := 1 } : ConnectionId Nat) 5).1 =
      Except.error cidUnavailableErr ∧
    (connect_with_cid [({ send := 4, recv := 3, peer := 1 }, 0)]
        ({ send := 4, recv := 3, peer := 1 } : ConnectionId Nat) 5).2.1 =
      [({ send := 4, recv := 3, peer := 1 }, 0)] := by
  have h := C5_connect_with_cid_unavailable
    [({ send := 4, recv := 3, peer := 1 }, 0)]
    ({ send := 4, recv := 3, peer := 1 } : ConnectionId Nat) 5 (by decide)
  exact ⟨h.1, h.2.2.2⟩

/-- **C6.** Every `ConnectionId` returned by `generate_cid` (and hence by
`cid`, `connect`) satisfies: it is not a key of `conns` at the moment of
allocation, its `recv` field is a 16-bit value, and
`send = recv + 1 mod 2^16` when `is_initiator` is true and
`send = recv - 1 mod 2^16` when `is_initiator` is false; in particular
`recv = 0xFFFF` with the initiator role yields `send = 0x0000`. -/
theorem C6_generate_cid_fresh {P : Type} [DecidableEq P]
    {conns : List (ConnectionId P × Nat)} {peer : P} {is_initiator : Bool}
    {event_tx : Option Nat} {rands : List Nat} {cid : ConnectionId P}
    {conns' : List (ConnectionId P × Nat)}
    (h : generate_cid conns peer is_initiator event_tx rands = some (cid, conns')) :
    alContains conns cid = false ∧
    cid.recv < 2 ^ 16 ∧
    (is_initiator = true → cid.send = (cid.recv + 1) % 2 ^ 16) ∧
    (is_initiator = false → cid.send = (cid.recv + 2 ^ 16 - 1) % 2 ^ 16) ∧
    (cid.recv = 65535 → is_initiator = true → cid.send = 0) := by
  obtain ⟨h1, h2, h3, _, _⟩ := generate_cid_some h
  refine ⟨h1, by norm_num at h2 ⊢; exact h2, ?_, ?_, ?_⟩
  · intro hi
    rw [h3, if_pos hi, wadd1]
    norm_num
  · intro hi
    rw [h3, if_neg (by rw [hi]; exact Bool.false_ne_true), wsub1]
    norm_num
  · intro h65 hi
    rw [h3, if_pos hi, wadd1, h65]

/-- Witness for C6 at the wrap boundary: the draw `65535` with the
initiator role against an empty registry. -/
theorem C6_generate_cid_fresh_witness :
    alContains ([] : List (ConnectionId Nat × Nat))
      { send := 0, recv := 65535, peer := 3 } = false ∧
    ({ send := 0, recv := 65535, peer := 3 } : ConnectionId Nat).recv < 2 ^ 16 ∧
    ({ send := 0, recv := 65535, peer := 3 } : ConnectionId Nat).send = 0 := by
  have h := C6_generate_cid_fresh
    (show generate_cid ([] : List (ConnectionId Nat × Nat)) 3 true none [65535]
        = some ({ send := 0, recv := 65535, peer := 3 }, []) by decide)
  exact ⟨h.1, h.2.1, h.2.2.2.2 rfl rfl⟩

/-- **C7.** For every entry that the expiring maps yield after
`AWAIT_TIMEOUT` (20 s): an expired `awaiting` entry `(cid, acceptor)` is
removed and its reply slot is fired with exactly one `TimedOut` error; an
expired `incoming` entry `(cid, packet)` is removed with no reply fired, no
outbound packet emitted, and no other state change. -/
theorem C7_expiry {P : Type} [DecidableEq P] (s : MuxState P) (cid : ConnectionId P)
    (accept : Accept) (t : Nat)
    (hexp : t + AWAITING_CONNECTION_TIMEOUT_MICROS ≤ s.now) :
    ((cid, (accept, t)) ∈ s.awaiting →
      alContains (handleAwaitingExpired s cid accept).1.awaiting cid = false ∧
      (handleAwaitingExpired s cid accept).1.conns = s.conns ∧
      (handleAwaitingExpired s cid accept).1.incoming = s.incoming ∧
      (handleAwaitingExpired s cid accept).2 =
        [Effect.replyFired accept.stream
          (Except.error (IoErr.fromKind ErrorKind.TimedOut))]) ∧
    (∀ packet : Packet, (cid, (packet, t)) ∈ s.incoming →
      alContains (handleIncomingExpired s cid).1.incoming cid = false ∧
      (handleIncomingExpired s cid).1.conns = s.conns ∧
      (handleIncomingExpired s cid).1.awaiting = s.awaiting ∧
      (handleIncomingExpired s cid).2 = []) := by
  refine ⟨fun _ => ⟨?_, rfl, rfl, rfl⟩, fun packet _ => ⟨?_, rfl, rfl, rfl⟩⟩
  · exact alContains_alRemove_self
  · exact alContains_alRemove_self

/-- Witness for C7: a state whose `awaiting` and `incoming` each hold one
entry inserted at time `0`, observed at `now = 20 s`. -/
theorem C7_expiry_witness :
    alContains (handleAwaitingExpired
        (⟨[], [({ send := 1, recv := 0, peer := 0 }, (⟨4, ()⟩, 0))],
          [({ send := 2, recv := 1, peer := 0 }, (⟨PacketType.Syn, 1, 0, 0, 0, 0⟩, 0))],
          0, 20000000⟩ : MuxState Nat)
        { send := 1, recv := 0, peer := 0 } ⟨4, ()⟩).1.awaiting
      { send := 1, recv := 0, peer := 0 } = false ∧
    (handleIncomingExpired
        (⟨[], [({ send := 1, recv := 0, peer := 0 }, (⟨4, ()⟩, 0))],
          [({ send := 2, recv := 1, peer := 0 }, (⟨PacketType.Syn, 1, 0, 0, 0, 0⟩, 0))],
          0, 20000000⟩ : MuxState Nat)
        { send := 2, recv := 1, peer := 0 }).2 = [] := by
  have h := C7_expiry
    (⟨[], [({ send := 1, recv := 0, peer := 0 }, (⟨4, ()⟩, 0))],
      [({ send := 2, recv := 1, peer := 0 }, (⟨PacketType.Syn, 1, 0, 0, 0, 0⟩, 0))],
      0, 20000000⟩ : MuxState Nat)
    { send := 1, recv := 0, peer := 0 } ⟨4, ()⟩ 0 (by decide)
  have h2 := C7_expiry
    (⟨[], [({ send := 1, recv := 0, peer := 0 }, (⟨4, ()⟩, 0))],
      [({ send := 2, recv := 1, peer := 0 }, (⟨PacketType.Syn, 1, 0, 0, 0, 0⟩, 0))],
      0, 20000000⟩ : MuxState Nat)
    { send := 2, recv := 1, peer := 0 } ⟨4, ()⟩ 0 (by decide)
  exact ⟨(h.1 (by decide)).1,
         (h2.2 ⟨PacketType.Syn, 1, 0, 0, 0, 0⟩ (by decide)).2.2.2⟩

/-- **C8.** For every call to `accept` or `accept_with_cid`: if the event
loop has exited so that the accept inbox channel is closed, the call
returns an error of kind `NotConnected`; if the request is enqueued but the
reply one-shot is dropped before firing, the call returns an error of kind
`TimedOut`; otherwise the call returns exactly the value fired on the reply
one-shot. -/
theorem C8_accept_result (send_ok : Bool) (reply : Option (Except IoErr Nat)) :
    (send_ok = false →
      accept_call send_ok reply =
        Except.error (IoErr.fromKind ErrorKind.NotConnected)) ∧
    (send_ok = true → reply = none →
      accept_call send_ok reply = Except.error (IoErr.fromKind ErrorKind.TimedOut)) ∧
    (send_ok = true → ∀ v, reply = some v → accept_call send_ok reply = v) := by
  refine ⟨?_, ?_, ?_⟩ <;> intros <;> simp_all [accept_call]

/-- Witness for C8: the three outcomes at concrete inputs (the fired value
taken to be the error a failed handshake would deliver, returned
verbatim). -/
theorem C8_accept_result_witness :
    accept_call false none = Except.error (IoErr.fromKind ErrorKind.NotConnected) ∧
    accept_call true none = Except.error (IoErr.fromKind ErrorKind.TimedOut) ∧
    accept_call true (some (Except.error (IoErr.fromKind ErrorKind.ConnectionAborted)))
      = Except.error (IoErr.fromKind ErrorKind.ConnectionAborted) :=
  ⟨(C8_accept_result false none).1 rfl,
   (C8_accept_result true none).2.1 rfl rfl,
   (C8_accept_result true
      (some (Except.error (IoErr.fromKind ErrorKind.ConnectionAborted)))).2.2 rfl _ rfl⟩

/-- **C9.** `cid(peer, is_initiator)` never modifies the `conns` registry
(it calls `generate_cid` with no ingress channel, so nothing is inserted);
consequently the returned `ConnectionId` is not recorded anywhere, and a
later call with the same peer and role (here: consuming the same random
draws) returns an equal `ConnectionId`. -/
theorem C9_cid_pure {P : Type} [DecidableEq P]
    {conns : List (ConnectionId P × Nat)} {peer : P} {is_initiator : Bool}
    {rands : List Nat} {c : ConnectionId P} {conns' : List (ConnectionId P × Nat)}
    (h : cid_public conns peer is_initiator rands = some (c, conns')) :
    conns' = conns ∧
    cid_public conns' peer is_initiator rands = some (c, conns') := by
  obtain ⟨_, _, _, _, hnone, _⟩ := generate_cid_some h
  have hcc : conns' = conns := hnone rfl
  subst hcc
  exact ⟨rfl, h⟩

/-- Witness for C9: `cid` on peer `1`, initiator role, consuming draw `8`. -/
theorem C9_cid_pure_witness :
    ([({ send := 30, recv := 31, peer := 9 }, 0)]
        : List (ConnectionId Nat × Nat)) =
      [({ send := 30, recv := 31, peer := 9 }, 0)] ∧
    cid_public [({ send := 30, recv := 31, peer := 9 }, 0)] 1 true [8] =
      some ({ send := 9, recv := 8, peer := 1 },
        [({ send := 30, recv := 31, peer := 9 }, 0)]) :=
  C9_cid_pure (by decide)

/-- **C10.** In both accept disciplines, when the chosen cid turns out to
already be a key of `conns`, the acceptor's reply slot is fired with the
"connection ID unavailable" error after the buffered SYN has already been
removed from the `incoming` map, and that SYN is discarded rather than
re-buffered: the error path changes the `incoming` map but not `conns`. -/
theorem C10_unavailable_discards_syn {P : Type} [DecidableEq P] (s : MuxState P)
    (accept : Accept) (cid : ConnectionId P) (entry : Packet × Nat)
    (incoming' : List (ConnectionId P × (Packet × Nat)))
    (ht : alTake s.incoming cid = some (entry, incoming'))
    (hcc : alContains s.conns cid = true) :
    handleAcceptWithCid s accept cid =
      ({ s with incoming := alRemove s.incoming cid },
       [Effect.replyFired accept.stream (Except.error cidUnavailableErr)]) ∧
    alContains (handleAcceptWithCid s accept cid).1.incoming cid = false ∧
    (handleAcceptWithCid s accept cid).1.conns = s.conns ∧
    (∀ pr rest, s.incoming = (cid, pr) :: rest →
      handleAccept s accept = handleAcceptWithCid s accept cid) := by
  obtain ⟨_, hrm⟩ := alTake_eq_some ht
  simp only [] at hrm
  subst hrm
  rw [handleAcceptWithCid_hit s accept cid entry (alRemove s.incoming cid) ht,
    select_accept_helper_unavail cid entry.1 s.conns accept s.nextChan hcc]
  refine ⟨rfl, alContains_alRemove_self, rfl, ?_⟩
  intro pr rest hin
  rw [handleAccept_cons s accept cid pr rest hin,
    handleAcceptWithCid_hit s accept cid entry (alRemove s.incoming cid) ht,
    select_accept_helper_unavail cid entry.1 s.conns accept s.nextChan hcc]

/-- Witness for C10: `incoming` holds a buffered SYN for cid
`(send=2, recv=3, peer=0)` which is also registered in `conns`. -/
theorem C10_unavailable_discards_syn_witness :
    handleAcceptWithCid
      (⟨[({ send := 2, recv := 3, peer := 0 }, 6)], [],
        [({ send := 2, recv := 3, peer := 0 }, (⟨PacketType.Syn, 2, 0, 0, 0, 0⟩, 0))],
        1, 0⟩ : MuxState Nat)
      ⟨8, ()⟩ { send := 2, recv := 3, peer := 0 } =
      ((⟨[({ send := 2, recv := 3, peer := 0 }, 6)], [], [], 1, 0⟩ : MuxState Nat),
       [Effect.replyFired 8 (Except.error cidUnavailableErr)]) := by
  have h := C10_unavailable_discards_syn
    (⟨[({ send := 2, recv := 3, peer := 0 }, 6)], [],
      [({ send := 2, recv := 3, peer := 0 }, (⟨PacketType.Syn, 2, 0, 0, 0, 0⟩, 0))],
      1, 0⟩ : MuxState Nat)
    ⟨8, ()⟩ { send := 2, recv := 3, peer := 0 }
    (⟨PacketType.Syn, 2, 0, 0, 0, 0⟩, 0) [] (by decide) (by decide)
  rw [h.1]
  rfl

/-- **C3 counterexample.** The claim "at every reachable state of the
multiplexer, a `ConnectionId` that is a key of `conns` is not
simultaneously a key of `awaiting` or `incoming`" is false on the code:
from the empty state, `connect_with_cid` with cid `(send=101, recv=100,
peer=0)` inserts the cid into `conns`, and a subsequent `accept_with_cid`
for the same cid finds no buffered SYN and parks the acceptor in
`awaiting` without checking `conns`, leaving the cid in both maps. -/
theorem C3_disjointness_counterexample :
    ¬ (∀ s : MuxState Nat, Reachable s →
        ∀ k : ConnectionId Nat, alContains s.conns k = true →
          alContains s.awaiting k = false ∧ alContains s.incoming k = false) := by
  intro hclaim
  have h1 : Reachable ((connect_with_cid_state (initState Nat)
      { send := 101, recv := 100, peer := 0 }).2) := by
    unfold Reachable
    exact Relation.ReflTransGen.tail Relation.ReflTransGen.refl
      (Step.connect_with_cid_call _ _)
  have h2 : Reachable ((handleAcceptWithCid
      (connect_with_cid_state (initState Nat)
        { send := 101, recv := 100, peer := 0 }).2
      ⟨0, ()⟩ { send := 101, recv := 100, peer := 0 }).1) := by
    unfold Reachable at h1 ⊢
    exact Relation.ReflTransGen.tail h1 (Step.accept_with_cid _ _ _)
  have hc := hclaim _ h2 { send := 101, recv := 100, peer := 0 } (by decide)
  exact absurd hc.1 (by decide)

/-- **C3 (amended).** At every state reachable when `accept_with_cid` is
never invoked for a cid currently in `conns` (at parking time) and
`connect`/`connect_with_cid` never allocate a cid currently in `awaiting`
or `incoming` — restrictions the code itself does not enforce — a
`ConnectionId` that is a key of the `conns` registry is not simultaneously
a key of the `awaiting` map or of the `incoming` map; in particular this
holds after such an `accept_with_cid` parks an acceptor in `awaiting` and
after such a `connect`/`connect_with_cid` inserts a cid into `conns`. -/
theorem C3_disjointness_amended {P : Type} [DecidableEq P] (s : MuxState P)
    (h : ReachableR s) :
    ∀ k : ConnectionId P, alContains s.conns k = true →
      alContains s.awaiting k = false ∧ alContains s.incoming k = false := by
  obtain ⟨h1, h2, _⟩ := reachableR_disjoint h
  intro k hk
  constructor
  · cases hx : alContains s.awaiting k with
    | false => rfl
    | true => exact (h1 k hk hx).elim
  · cases hx : alContains s.incoming k with
    | false => rfl
    | true => exact (h2 k hk hx).elim

/-- Witness for the amended C3: the state after a guarded
`connect_with_cid` of `(send=101, recv=100, peer=0)` from the empty state
is reachable under the restricted step relation and satisfies the
disjointness. -/
theorem C3_disjointness_amended_witness :
    alContains ((connect_with_cid_state (initState Nat)
        { send := 101, recv := 100, peer := 0 }).2).awaiting
      { send := 101, recv := 100, peer := 0 } = false ∧
    alContains ((connect_with_cid_state (initState Nat)
        { send := 101, recv := 100, peer := 0 }).2).incoming
      { send := 101, recv := 100, peer := 0 } = false := by
  refine C3_disjointness_amended _ ?_ { send := 101, recv := 100, peer := 0 }
    (by decide)
  unfold ReachableR
  exact Relation.ReflTransGen.tail Relation.ReflTransGen.refl
    (StepR.connect_with_cid_call _ _ (by decide) (by decide))

end Utp
